import Mathlib

/-
Verification of the FlatLand rule/state engine (src/flatland: logic_engine.py,
state_manager.py, built_in_functions.py) against its specification.

Shallow embedding conventions:
  - Python dict-based states become Lean structures.  A grid cell value is an
    Int; positions are pairs of Ints (Python JSON ints may be negative).
  - Python property dicts become association lists `List (String × Value)`
    with unique keys (a Python dict cannot hold a duplicate key); `Value.null`
    stands for Python `None`.
  - `state["current_entity"]` in the source is a reference aliased with a
    member of the entity list; every mutation of it in the source is paired
    (explicitly in state_manager.py, via aliasing in logic_engine.py) with the
    matching update of the list entry, so it is embedded as a synced copy:
    an `Option Entity` updated together with the (unique-id) list entry.
  - Python exceptions are modelled with `Except PyErr`; list indexing with
    Python semantics (negative wrap-around, IndexError) is `pyGet`.
-/

inductive Value where
  | int : Int → Value
  | str : String → Value
  | bool : Bool → Value
  | null : Value
deriving DecidableEq, Repr

structure Entity where
  id : String
  type : String
  position : Int × Int
  properties : List (String × Value)
deriving DecidableEq, Repr

structure Grid where
  width : Int
  height : Int
  cells : List (List Int)
deriving DecidableEq, Repr

/-- Effect dictionaries returned by the action appliers in the source:
`move_entity` returns `{entity, from, to}`, `transform_entity` returns
`{entity, changes}`, `validate_state` returns `{valid, condition}`. -/
inductive Effect where
  | move : String → Int × Int → Int × Int → Effect
  | transform : String → List (String × Value) → Effect
  | validate : String → Effect
deriving DecidableEq, Repr

/-- One entry of the change log: `{"rule": ..., "effect": ...}`. -/
structure ChangeRec where
  rule : String
  effect : Effect
deriving DecidableEq, Repr

/-- The state dict: `grid`, `entities`, and the bookkeeping keys
`current_entity` (evaluation context) and `changes_history` (appended by
state_manager.py's `record_step`). -/
structure GState where
  grid : Grid
  entities : List Entity
  current_entity : Option Entity
  changes_history : List (List ChangeRec)
deriving DecidableEq, Repr

/-- Python bounds test `0 <= x < width and 0 <= y < height`. -/
abbrev inB (g : Grid) (x y : Int) : Prop :=
  0 ≤ x ∧ x < g.width ∧ 0 ≤ y ∧ y < g.height

/-- In-bounds read `grid["cells"][y][x]`; total with default 0, used by the
source only after a bounds check (under `Grid.wf` it agrees with Python). -/
def cellAt (g : Grid) (x y : Int) : Int :=
  (g.cells.getD y.toNat []).getD x.toNat 0

/-- In-bounds write `grid["cells"][y][x] = v`. -/
def setCellG (g : Grid) (x y : Int) (v : Int) : Grid :=
  { g with cells := g.cells.set y.toNat ((g.cells.getD y.toNat []).set x.toNat v) }

/-- Well-formedness of the cells matrix: the row count matches `height` and
every row's length matches `width` (guaranteed for grids built from the JSON
loader's rectangular fixtures; needed so the `getD`-based reads above agree
with Python's list indexing). -/
def Grid.wf (g : Grid) : Prop :=
  g.cells.length = g.height.toNat ∧ ∀ row ∈ g.cells, row.length = g.width.toNat

instance (g : Grid) : Decidable g.wf := by
  unfold Grid.wf; exact inferInstance

/-- Python list indexing `l[i]` for an `Int` index: negative indices wrap
once, any other out-of-range index raises IndexError (here: `none`). -/
def pyGet {α : Type} (l : List α) (i : Int) : Option α :=
  let j : Int := if i < 0 then (l.length : Int) + i else i
  if 0 ≤ j then l[j.toNat]? else none

/-- The unguarded probe `state['grid']['cells'][target_y][target_x]` in
`process_input` (logic_engine.py line 86), with Python indexing semantics. -/
def probeCell (cells : List (List Int)) (x y : Int) : Option Int :=
  (pyGet cells y).bind fun row => pyGet row x

inductive PyErr where
  | indexError : PyErr
deriving DecidableEq, Repr

/-- BuiltInFunctions.check_movement (built_in_functions.py lines 175-218);
LogicEngine._check_movement (logic_engine.py lines 312-345) is the same
logic.  A missing current entity (or one without a position) makes the
box branch return False; this is the `Option.none` case here. -/
def check_movement (st : GState) (x y : Int) : Bool :=
  if ¬ inB st.grid x y then false
  else if cellAt st.grid x y = 1 then false
  else if cellAt st.grid x y = 3 then
    match st.current_entity with
    | none => false
    | some cur =>
      let dx := x - cur.position.1
      let dy := y - cur.position.2
      let nx := x + dx
      let ny := y + dy
      if ¬ inB st.grid nx ny then false
      else decide (cellAt st.grid nx ny = 0 ∨ cellAt st.grid nx ny = 4)
  else decide (cellAt st.grid x y = 0 ∨ cellAt st.grid x y = 4)

/-- Outcome of evaluating a condition-expression string: the source runs
`eval` on it and treats every raised exception as False.  The claims under
check quantify over all evaluators, so the evaluator is a parameter. -/
inductive EvalOutcome where
  | ok : Bool → EvalOutcome
  | err : EvalOutcome
deriving DecidableEq, Repr

abbrev EvalFn := String → GState → EvalOutcome

/-- The `when` clause of a rule: condition string plus required entity
types. -/
structure CondWhen where
  condition : String
  entities : List String
deriving DecidableEq, Repr

/-- BuiltInFunctions.has_entity_type / LogicEngine._has_entity_type. -/
def has_entity_type (st : GState) (t : String) : Bool :=
  st.entities.any (fun e => e.type = t)

/-- The required-entities loop in LogicEngine._evaluate_condition:
`for entity_type in required_entities: if not has: return False`. -/
def require_entities_ok (st : GState) : List String → Bool
  | [] => true
  | t :: rest =>
    if ¬ has_entity_type st t then false else require_entities_ok st rest

/-- LogicEngine._evaluate_condition (logic_engine.py lines 182-221): gate on
required entity types unless the sentinel "any" is listed, then evaluate the
condition string, mapping any evaluation failure to False. -/
def evaluate_condition (evalStr : EvalFn) (w : CondWhen) (st : GState) : Bool :=
  if ("any") ∉ w.entities ∧ require_entities_ok st w.entities = false then false
  else
    match evalStr w.condition st with
    | .ok b => b
    | .err => false

/-- LogicEngine.check_victory_conditions (lines 154-166): the loop
`for condition in victory_conditions: if not eval: return False; return True`;
each condition is passed on without an `entities` list. -/
def check_victory (evalStr : EvalFn) (st : GState) : List String → Bool
  | [] => true
  | c :: rest =>
    if evaluate_condition evalStr { condition := c, entities := [] } st then
      check_victory evalStr st rest
    else false

/-- LogicEngine.check_failure_conditions (lines 168-180): the loop
`for condition in failure_conditions: if eval: return True; return False`. -/
def check_failure (evalStr : EvalFn) (st : GState) : List String → Bool
  | [] => false
  | c :: rest =>
    if evaluate_condition evalStr { condition := c, entities := [] } st then
      true
    else check_failure evalStr st rest

/-- Replace the value of the first association-list entry with key `k`
(Python `d[k] = v` on an existing key keeps the key's position), appending
`(k, v)` when the key is new. -/
def setProp : List (String × Value) → String → Value → List (String × Value)
  | [], k, v => [(k, v)]
  | kv :: rest, k, v =>
    if kv.1 = k then (k, v) :: rest else kv :: setProp rest k v

/-- Remove the first association-list entry with key `k` (Python `del d[k]`;
a dict holds each key once). -/
def delProp : List (String × Value) → String → List (String × Value)
  | [], _ => []
  | kv :: rest, k => if kv.1 = k then rest else kv :: delProp rest k

/-- Python `d[k]` / `k in d` on a property dict. -/
def lookupProp (props : List (String × Value)) (k : String) : Option Value :=
  (props.find? (fun kv => kv.1 = k)).map Prod.snd

/-- Update the first list element satisfying `p` (the source either mutates
the object found by a `next(...)` scan or runs a `for ... if ...: ...; break`
loop; both touch exactly the first match). -/
def updateFirst {α : Type} (p : α → Bool) (f : α → α) : List α → List α
  | [] => []
  | a :: rest => if p a then f a :: rest else a :: updateFirst p f rest

/-- The `old_cell_was_goal` test of StateManager.move_entity (state_manager.py
lines 400-407): the vacated cell's code is 2 and a player-typed entity stands
at the vacated position. -/
def vacated_is_goal (grid1 : Grid) (ents1 : List Entity) (oldPos : Int × Int) : Bool :=
  decide (cellAt grid1 oldPos.1 oldPos.2 = 2) &&
  ents1.any (fun e => decide (e.position = oldPos) && decide (e.type = ("player")))

/-- The tail of StateManager.move_entity after the box phase (state_manager.py
lines 398-431): read the vacated cell's code, restore the vacated cell to 4
when `vacated_is_goal` holds (else 0), write the mover's new cell (2 when the
destination reads 4 after the vacate write, else the vacated cell's previous
code), and update the mover's position both in `current_entity` and in the
entity list (first id match). -/
def move_finish (st : GState) (cur : Entity) (grid1 : Grid) (ents1 : List Entity)
    (newPos : Int × Int) : Option Effect × GState :=
  let oldPos := cur.position
  let etv := cellAt grid1 oldPos.1 oldPos.2
  let wasGoal := vacated_is_goal grid1 ents1 oldPos
  let grid2 := setCellG grid1 oldPos.1 oldPos.2 (if wasGoal then 4 else 0)
  let etv2 := if cellAt grid2 newPos.1 newPos.2 = 4 then 2 else etv
  let grid3 := setCellG grid2 newPos.1 newPos.2 etv2
  let cur2 := { cur with position := newPos }
  let ents2 := updateFirst (fun e => e.id = cur.id)
    (fun e => { e with position := newPos }) ents1
  (some (Effect.move cur.id oldPos newPos),
   { st with grid := grid3, entities := ents2, current_entity := some cur2 })

/-- StateManager.move_entity (state_manager.py lines 347-431).  The copy in
logic_engine.py (lines 403-470) is the same except that it omits the bounds
check on the box's push destination (it indexes the row directly) and leaves
the entity-list update to aliasing; all uses in this development stay on
paths where the two agree (the box destination is bounds-checked upstream by
check_movement, and ids are unique). -/
def move_entity (st : GState) (newPos : Int × Int) : Option Effect × GState :=
  match st.current_entity with
  | none => (none, st)
  | some cur =>
    let oldPos := cur.position
    if ¬ inB st.grid newPos.1 newPos.2 then (none, st)
    else if cellAt st.grid newPos.1 newPos.2 = 3 then
      match st.entities.find? (fun e => decide (e.position = newPos)) with
      | some _ =>
        let bx := newPos.1 + (newPos.1 - oldPos.1)
        let by2 := newPos.2 + (newPos.2 - oldPos.2)
        if inB st.grid bx by2 ∧
            (cellAt st.grid bx by2 = 0 ∨ cellAt st.grid bx by2 = 4) then
          let grid1 := setCellG (setCellG st.grid newPos.1 newPos.2 0) bx by2 3
          let ents1 := updateFirst (fun e => decide (e.position = newPos))
            (fun e => { e with position := (bx, by2) }) st.entities
          move_finish st cur grid1 ents1 newPos
        else (none, st)
      | none => move_finish st cur st.grid st.entities newPos
    else move_finish st cur st.grid st.entities newPos

/-- StateManager.transform_entity (state_manager.py lines 317-345): for each
parameter key, overwrite an existing property (recording the change), or —
for the key "type" — retag the entity's type.  Only string-valued retags are
representable here (`Entity.type` is a `String`); no claim depends on a
non-string retag.  The entity-list entry is updated in sync with
`current_entity` (aliasing in the source). -/
def transform_entity (st : GState) (params : List (String × Value)) :
    Option Effect × GState :=
  match st.current_entity with
  | none => (none, st)
  | some cur =>
    let res := params.foldl
      (fun (acc : Entity × List (String × Value)) kv =>
        if (lookupProp acc.1.properties kv.1).isSome then
          ({ acc.1 with properties := setProp acc.1.properties kv.1 kv.2 },
           acc.2 ++ [kv])
        else if kv.1 = ("type") then
          match kv.2 with
          | Value.str s => ({ acc.1 with type := s }, acc.2 ++ [kv])
          | _ => acc
        else acc)
      (cur, [])
    let cur2 := res.1
    (some (Effect.transform cur.id res.2),
     { st with current_entity := some cur2,
               entities := updateFirst (fun e => e.id = cur.id)
                 (fun _ => cur2) st.entities })

/-- StateManager.validate_state (state_manager.py lines 433-452 /
logic_engine.py lines 472-483): a placeholder that echoes the condition. -/
def validate_state (st : GState) (condition : Option String) :
    Option Effect × GState :=
  match condition with
  | none => (none, st)
  | some c => (some (Effect.validate c), st)

/-- A rule's `then` clause. -/
inductive RuleAction where
  | move : Int × Int → RuleAction
  | transform : List (String × Value) → RuleAction
  | validate : Option String → RuleAction
deriving DecidableEq, Repr

/-- LogicEngine._apply_action (logic_engine.py lines 223-235). -/
def apply_action (st : GState) : RuleAction → Option Effect × GState
  | .move p => move_entity st p
  | .transform ps => transform_entity st ps
  | .validate c => validate_state st c

structure Rule where
  name : String
  type : String
  priority : Int
  whenC : CondWhen
  thenA : RuleAction
deriving DecidableEq, Repr

/-- The StateManager defined inside logic_engine.py (lines 363-384): current
state, a bounded history, no redo stack.  This is the manager LogicEngine
instantiates. -/
structure StateManagerLE where
  current : GState
  history : List GState
  max_history : Nat
deriving DecidableEq, Repr

/-- The in-file record_step (logic_engine.py lines 380-384): evict the oldest
frame at capacity, push the current (at call time) state. -/
def record_step_le (sm : StateManagerLE) : StateManagerLE :=
  { sm with history :=
      (if sm.max_history ≤ sm.history.length then sm.history.drop 1
       else sm.history) ++ [sm.current] }

/-- The engine state after load_environment: the state manager plus the
loaded rules and victory/failure condition strings. -/
structure Engine where
  sm : StateManagerLE
  rules : List Rule
  victory_conditions : List String
  failure_conditions : List String
deriving DecidableEq, Repr

/-- Result dict of process_input: either `{"error": msg}` or
`{state, changes, victory, failure}`. -/
inductive PIResult where
  | err : String → PIResult
  | okRes : GState → List ChangeRec → Bool → Bool → PIResult
deriving DecidableEq, Repr

/-- LogicEngine.process_input (logic_engine.py lines 51-120): find the first
player-typed entity, map the command to a target cell, run the unguarded
debug probe of the target cell (which can raise IndexError), check movement,
set `current_entity`, apply the move, record the step, and evaluate the
victory/failure lists.  Error dicts are ordinary results; a raised exception
is `Except.error`. -/
def process_input (evalStr : EvalFn) (eng : Engine) (command : String) :
    Except PyErr (PIResult × Engine) :=
  let st := eng.sm.current
  match st.entities.find? (fun e => e.type = ("player")) with
  | none => .ok (.err ("No player entity found"), eng)
  | some player =>
    let x := player.position.1
    let y := player.position.2
    let target : Option (Int × Int) :=
      if command = ("up") then some (x, y - 1)
      else if command = ("down") then some (x, y + 1)
      else if command = ("left") then some (x - 1, y)
      else if command = ("right") then some (x + 1, y)
      else none
    match target with
    | none => .ok (.err (("Unknown command: ") ++ command), eng)
    | some (tx, ty) =>
      match probeCell st.grid.cells tx ty with
      | none => .error PyErr.indexError
      | some _ =>
        if ¬ check_movement st tx ty then .ok (.err ("Cannot move there"), eng)
        else
          let st1 := { eng.sm.current with current_entity := some player }
          match move_entity st1 (tx, ty) with
          | (none, st2) =>
            .ok (.err ("Move failed"),
                 { eng with sm := { eng.sm with current := st2 } })
          | (some eff, st2) =>
            let changes := [ChangeRec.mk ("player_movement") eff]
            let sm2 := record_step_le { eng.sm with current := st2 }
            let vict := check_victory evalStr sm2.current eng.victory_conditions
            let fail := check_failure evalStr sm2.current eng.failure_conditions
            .ok (.okRes sm2.current changes vict fail, { eng with sm := sm2 })

/-- Result dict of LogicEngine.step. -/
structure StepResult where
  state : GState
  changes : List ChangeRec
  victory : Bool
  failure : Bool
deriving DecidableEq, Repr

/-- LogicEngine.step (logic_engine.py lines 122-152): evaluate each rule in
(pre-sorted) order against the evolving current state, apply the actions of
those that fire, record the step, then evaluate victory/failure lists
against the resulting current state. -/
def step_engine (evalStr : EvalFn) (eng : Engine) : StepResult × Engine :=
  let acc := eng.rules.foldl
    (fun (acc : List ChangeRec × GState) rule =>
      if evaluate_condition evalStr rule.whenC acc.2 then
        match apply_action acc.2 rule.thenA with
        | (some eff, st2) => (acc.1 ++ [ChangeRec.mk rule.name eff], st2)
        | (none, st2) => (acc.1, st2)
      else acc)
    ([], eng.sm.current)
  let sm2 := record_step_le { eng.sm with current := acc.2 }
  let vict := check_victory evalStr sm2.current eng.victory_conditions
  let fail := check_failure evalStr sm2.current eng.failure_conditions
  ({ state := sm2.current, changes := acc.1, victory := vict, failure := fail },
   { eng with sm := sm2 })

/-- The enhanced StateManager of state_manager.py (lines 10-120): current
state, bounded history, redo stack `future`. -/
structure StateManager where
  current : GState
  history : List GState
  future : List GState
  max_history : Nat
deriving DecidableEq, Repr

/-- StateManager() (state_manager.py line 13): empty state, `max_history`
defaulting to 1000. -/
def init_state_manager : StateManager :=
  { current := { grid := { width := 0, height := 0, cells := [] },
                 entities := [], current_entity := none, changes_history := [] },
    history := [], future := [], max_history := 1000 }

/-- StateManager.set_initial_state (state_manager.py lines 25-34): deep-copy
the given state into `current`, reset `history` to a one-frame stack holding
a copy of it, clear `future`. -/
def set_initial_state (sm : StateManager) (s : GState) : StateManager :=
  { sm with current := s, history := [s], future := [] }

/-- StateManager.record_step (state_manager.py lines 45-66): clear `future`,
evict the oldest history frame at capacity, push a deep copy of the current
(at call time) state, then tag the current state with the change list. -/
def record_step (sm : StateManager) (changes : List ChangeRec) : StateManager :=
  { sm with
    future := [],
    history :=
      (if sm.max_history ≤ sm.history.length then sm.history.drop 1
       else sm.history) ++ [sm.current],
    current := { sm.current with
      changes_history := sm.current.changes_history ++ [changes] } }

/-- StateManager.can_undo (state_manager.py lines 68-75). -/
def can_undo (sm : StateManager) : Bool :=
  decide (0 < sm.history.length)

/-- StateManager.undo (state_manager.py lines 86-102): move the current state
onto `future`, pop the most recent history frame into `current`, and return
(a copy of) it; `none` when the history stack is empty. -/
def undo (sm : StateManager) : Option GState × StateManager :=
  if can_undo sm then
    match sm.history.getLast? with
    | some st =>
      (some st,
       { sm with current := st, history := sm.history.dropLast,
                 future := sm.future ++ [sm.current] })
    | none => (none, sm)
  else (none, sm)

/-- The step flow of logic_engine.py driving state_manager.py's manager, per
the sources of the history-recording claim: LogicEngine.step applies the
fired actions (mutating the manager's current state in place) and only then
calls record_step — here specialised to one fired move action. -/
def step_move_record (sm : StateManager) (newPos : Int × Int) : StateManager :=
  let r := move_entity sm.current newPos
  record_step { sm with current := r.2 }
    (match r.1 with
     | some eff => [ChangeRec.mk ("player_movement") eff]
     | none => [])

/-- Field-level changes of one entity as computed by
StateManager._compute_entity_diff (state_manager.py lines 180-233).  In the
`properties` records, `Value.null` plays the role of Python `None`, which the
source uses both as the absent-side marker and as a possible stored value. -/
structure EntityChanges where
  position : Option ((Int × Int) × (Int × Int))
  type : Option (String × String)
  properties : List (String × (Value × Value))
deriving DecidableEq, Repr

/-- One record of `diff["entities"]`. -/
inductive EntityDiffRec where
  | add : Entity → EntityDiffRec
  | modify : String → EntityChanges → EntityDiffRec
  | remove : String → EntityDiffRec
deriving DecidableEq, Repr

/-- One record of `diff["grid"]["cells"]`: `{"position": [x, y], old, new}`.
The positions produced by compute_state_diff are the loop indices, hence
naturals. -/
structure CellDiff where
  pos : Nat × Nat
  old : Int
  new : Int
deriving DecidableEq, Repr

structure StateDiff where
  entities : List EntityDiffRec
  cells : List CellDiff
deriving DecidableEq, Repr

/-- Python dict equality on property dicts (order-insensitive): the two maps
agree on every key of either. -/
def pyEqProps (p q : List (String × Value)) : Bool :=
  ((p.map Prod.fst) ++ (q.map Prod.fst)).all
    (fun k => lookupProp p k = lookupProp q k)

/-- Python dict equality on entity dicts (`entity != old_entities[eid]` in
the source): field-wise, with the property dict compared as a map. -/
def pyEqEntity (a b : Entity) : Bool :=
  decide (a.id = b.id) && decide (a.type = b.type) &&
  decide (a.position = b.position) && pyEqProps a.properties b.properties

/-- The dict comprehension `{e["id"]: e for e in entities}` keeps the last
entity for a duplicated id, so lookups into it find the last match. -/
def findLastById (es : List Entity) (i : String) : Option Entity :=
  es.reverse.find? (fun e => e.id = i)

/-- The union of property keys iterated by _compute_entity_diff
(`set(old) | set(new)`); Python's set iteration order is unspecified, and
the apply side treats the records of distinct keys independently, so the
old-keys-first order is fixed here. -/
def unionKeys (old new : List (String × Value)) : List String :=
  ((old.map Prod.fst) ++ (new.map Prod.fst)).dedup

/-- The per-key record of _compute_entity_diff's property loop: `{old, new}`
with `Value.null` (Python None) for an absent side, `none` when the sides
agree. -/
def props_diff_fn (old new : List (String × Value)) (k : String) :
    Option (String × (Value × Value)) :=
  match lookupProp old k, lookupProp new k with
  | some o, some n => if o ≠ n then some (k, (o, n)) else none
  | none, some n => some (k, (Value.null, n))
  | some o, none => some (k, (o, Value.null))
  | none, none => none

/-- The property part of StateManager._compute_entity_diff (lines 207-231):
for each key of either dict, record `{old, new}` (with `Value.null` for the
absent side) when the two sides differ. -/
def compute_props_diff (old new : List (String × Value)) :
    List (String × (Value × Value)) :=
  (unionKeys old new).filterMap (props_diff_fn old new)

/-- StateManager._compute_entity_diff (state_manager.py lines 180-233). -/
def compute_entity_diff (old new : Entity) : EntityChanges :=
  { position :=
      if old.position ≠ new.position then some (old.position, new.position)
      else none,
    type := if old.type ≠ new.type then some (old.type, new.type) else none,
    properties := compute_props_diff old.properties new.properties }

/-- The `added entities` pass of compute_state_diff (lines 142-145). -/
def diff_adds (a b : List Entity) : List EntityDiffRec :=
  (b.filter (fun e => (findLastById a e.id).isNone)).map EntityDiffRec.add

/-- One pass of the `modified entities` loop of compute_state_diff: a modify
record when the id is in the old store and the two dicts differ. -/
def diff_mod_fn (a : List Entity) (e : Entity) : Option EntityDiffRec :=
  match findLastById a e.id with
  | some o =>
    if pyEqEntity o e then none
    else some (EntityDiffRec.modify e.id (compute_entity_diff o e))
  | none => none

/-- The `modified entities` pass of compute_state_diff (lines 147-154). -/
def diff_mods (a b : List Entity) : List EntityDiffRec :=
  b.filterMap (diff_mod_fn a)

/-- The `removed entities` pass of compute_state_diff (lines 156-159). -/
def diff_rems (a b : List Entity) : List EntityDiffRec :=
  (a.filter (fun e => (findLastById b e.id).isNone)).map
    (fun e => EntityDiffRec.remove e.id)

/-- The cell records of one grid row (`for x in range(min(...))` at
compute_state_diff lines 170-176), for row index `yy`. -/
def row_diff (yy : Nat) (r s : List Int) : List CellDiff :=
  (List.range (min r.length s.length)).filterMap (fun xx =>
    if r.getD xx 0 ≠ s.getD xx 0 then
      some { pos := (xx, yy), old := r.getD xx 0, new := s.getD xx 0 }
    else none)

/-- The grid part of compute_state_diff (lines 161-176): row-major scan of
the overlapping rectangle of the two cell matrices. -/
def cells_diff (old new : List (List Int)) : List CellDiff :=
  (List.range (min old.length new.length)).flatMap (fun yy =>
    row_diff yy (old.getD yy []) (new.getD yy []))

/-- StateManager.compute_state_diff (state_manager.py lines 122-178); the
entity dict iterations follow the entity-list order (exact for the
unique-id states all round-trip statements assume). -/
def compute_state_diff (a b : GState) : StateDiff :=
  { entities := diff_adds a.entities b.entities ++ diff_mods a.entities b.entities
      ++ diff_rems a.entities b.entities,
    cells := cells_diff a.grid.cells b.grid.cells }

/-- One property record on the apply side (apply_diff lines 276-284):
a `None` (here `Value.null`) new side deletes the key, anything else sets
it. -/
def apply_prop_change (props : List (String × Value)) (k : String) (n : Value) :
    List (String × Value) :=
  if n = Value.null then delProp props k else setProp props k n

/-- The `modify` branch of apply_diff (lines 261-284) applied to one
entity. -/
def apply_entity_changes (e : Entity) (ch : EntityChanges) : Entity :=
  let e1 := match ch.position with
    | some pn => { e with position := pn.2 }
    | none => e
  let e2 := match ch.type with
    | some tn => { e1 with type := tn.2 }
    | none => e1
  { e2 with properties :=
      (List.foldl (fun ps kv => apply_prop_change ps kv.1 kv.snd.snd)
        e2.properties ch.properties) }

/-- One entity record on the apply side (apply_diff lines 249-284): `add`
appends, `remove` filters by id, `modify` rewrites every id match (the
source loop has no break). -/
def apply_entity_diff (es : List Entity) : EntityDiffRec → List Entity
  | .add e => es ++ [e]
  | .remove i => es.filter (fun e => ¬ e.id = i)
  | .modify i ch =>
    es.map (fun e => if e.id = i then apply_entity_changes e ch else e)

/-- The grid part of apply_diff (lines 286-289). -/
def apply_cells (cells : List (List Int)) (ds : List CellDiff) :
    List (List Int) :=
  ds.foldl (fun cs cd => cs.set cd.pos.2 ((cs.getD cd.pos.2 []).set cd.pos.1 cd.new))
    cells

/-- StateManager.apply_diff (state_manager.py lines 235-291). -/
def apply_diff (st : GState) (d : StateDiff) : GState :=
  { st with
    entities := d.entities.foldl apply_entity_diff st.entities,
    grid := { st.grid with cells := apply_cells st.grid.cells d.cells } }

/-- Python `==` on entity lists: pointwise dict equality. -/
def pyEqEntities : List Entity → List Entity → Bool
  | [], [] => true
  | a :: es, b :: fs => pyEqEntity a b && pyEqEntities es fs
  | _, _ => false

/-- Python `==` on the grid-and-entities portion of two states — the portion
compute_state_diff reads and apply_diff writes (the source additionally
carries the bookkeeping keys `changes_history`/`current_entity`, which the
diff machinery neither records nor restores). -/
def pyEqStateGE (a b : GState) : Bool :=
  decide (a.grid = b.grid) && pyEqEntities a.entities b.entities

/-- An evaluator standing in for `eval` where no condition string is ever
evaluated (the fixtures below carry no rules or victory/failure
conditions). -/
def evalNoop : EvalFn := fun _ _ => .err

/-- The 5×5 fixture of the end-to-end example: walls around the border, an
empty goal (4) at (3,2), the player (2) at (2,2). -/
def gridC1 : Grid :=
  { width := 5, height := 5,
    cells := [[1, 1, 1, 1, 1],
              [1, 0, 0, 0, 1],
              [1, 0, 2, 4, 1],
              [1, 0, 0, 0, 1],
              [1, 1, 1, 1, 1]] }

def playerC1 : Entity :=
  { id := ("player"), type := ("player"), position := (2, 2), properties := [] }

def stC1 : GState :=
  { grid := gridC1, entities := [playerC1], current_entity := none,
    changes_history := [] }

/-- The engine right after load_environment on the end-to-end fixture (no
rules and no victory/failure conditions are involved in the claim). -/
def engC1 : Engine :=
  { sm := { current := stC1, history := [stC1], max_history := 1000 },
    rules := [], victory_conditions := [], failure_conditions := [] }

/-- The end-to-end example exactly as the specification states it, as a
boolean check: after `process_input("right")` the first change's effect is
the player moving (2,2) → (3,2), the returned state reads 0 at (2,2) and 2
at (3,2), and a second `process_input("right")` into the wall returns the
error `Cannot move there` leaving the engine state unchanged. -/
def claimC1_as_stated : Bool :=
  match process_input evalNoop engC1 ("right") with
  | .ok (.okRes st chs _ _, eng1) =>
    decide (chs = [{ rule := ("player_movement"),
                     effect := Effect.move ("player") (2, 2) (3, 2) }]) &&
    decide (cellAt st.grid 2 2 = 0) &&
    decide (cellAt st.grid 3 2 = 2) &&
    (match process_input evalNoop eng1 ("right") with
     | .ok (.err m, eng2) => decide (m = ("Cannot move there")) &&
         decide (eng2 = eng1)
     | _ => false)
  | _ => false

/-- C1, counterexample.  The end-to-end example fails on the code at exactly
one point: the returned state reads 4 at the vacated cell (2,2), not 0 —
move_entity restores every cell a player vacates to goal-code 4 (its
`old_cell_was_goal` test is `cell == 2 and a player stands there`, which any
player move satisfies).  The repository's own integration test
(tests/test_integration.py line 186) asserts the 4. -/
theorem C1_counterexample : claimC1_as_stated = false := by rfl

/-- C1, amended: as claimed, except that cell (2,2) of the returned state
reads 4 (vacated player cells are restored to goal-code), not 0.  First
effect, cell (3,2) = 2, and the error result with unchanged state on the
second call all hold as stated. -/
theorem C1_amended :
    (match process_input evalNoop engC1 ("right") with
     | .ok (.okRes st chs _ _, eng1) =>
       decide (chs = [{ rule := ("player_movement"),
                        effect := Effect.move ("player") (2, 2) (3, 2) }]) &&
       decide (cellAt st.grid 2 2 = 4) &&
       decide (cellAt st.grid 3 2 = 2) &&
       (match process_input evalNoop eng1 ("right") with
        | .ok (.err m, eng2) => decide (m = ("Cannot move there")) &&
            decide (eng2 = eng1)
        | _ => false)
     | _ => false) = true := by rfl

/-- A loadable 1×1 state whose player sits at the bottom edge: the validator
(RuleValidator.validate_environment) accepts it, since only grid
width/height and the entities list shape are checked. -/
def stC7 : GState :=
  { grid := { width := 1, height := 1, cells := [[2]] },
    entities := [{ id := ("player"), type := ("player"), position := (0, 0),
                   properties := [] }],
    current_entity := none, changes_history := [] }

def engC7 : Engine :=
  { sm := { current := stC7, history := [stC7], max_history := 1000 },
    rules := [], victory_conditions := [], failure_conditions := [] }

/-- C7, failing input.  `process_input("down")` with the player on the
bottom row computes target (0,1) and the unguarded debug probe
`state['grid']['cells'][1][0]` (logic_engine.py line 86) raises IndexError
before the movement check can reject the move — contradicting the claim
that an out-of-bounds move returns a structured error and that
process_input never raises.  (Commands probing negative indices, e.g. "up"
at the top row, wrap around in Python and reach the structured error
path.) -/
theorem C7_failing_input :
    process_input evalNoop engC7 ("down") = .error PyErr.indexError := by rfl

/-- C3.  Movement legality: `can_move_to` (check_movement) is false out of
bounds and on walls; on a box cell (with a current entity to push from) it
is true exactly when the push destination — one cell further along the
vector from the current entity to the target — is in bounds and reads 0 or
4; on any other cell it is true exactly when the cell reads 0 or 4. -/
theorem C3_can_move_to_spec (st : GState) (x y : Int) :
    (¬ inB st.grid x y → check_movement st x y = false) ∧
    (cellAt st.grid x y = 1 → check_movement st x y = false) ∧
    (∀ cur, st.current_entity = some cur → inB st.grid x y →
      cellAt st.grid x y = 3 →
      (check_movement st x y = true ↔
        inB st.grid (x + (x - cur.position.1)) (y + (y - cur.position.2)) ∧
        (cellAt st.grid (x + (x - cur.position.1)) (y + (y - cur.position.2)) = 0 ∨
         cellAt st.grid (x + (x - cur.position.1)) (y + (y - cur.position.2)) = 4))) ∧
    (inB st.grid x y → cellAt st.grid x y ≠ 1 → cellAt st.grid x y ≠ 3 →
      (check_movement st x y = true ↔
        (cellAt st.grid x y = 0 ∨ cellAt st.grid x y = 4))) := by
  refine ⟨?_, ?_, ?_, ?_⟩
  · intro h
    simp [check_movement, h]
  · intro h
    by_cases hb : inB st.grid x y <;> simp [check_movement, h, hb]
  · intro cur hcur hin h3
    by_cases hb : inB st.grid (x + (x - cur.position.1)) (y + (y - cur.position.2))
    · simp [check_movement, hcur, h3, hin, hb]
      exact fun _ => hb
    · simp [check_movement, hcur, h3, hin, hb]
  · intro hin h1 h3
    simp [check_movement, hin, h1, h3]

/-- A fixture exercising every branch of the movement-legality statement:
one row `[2, 3, 0, 1]` with the player at (0,0) as current entity and a box
at (1,0). -/
def curC3 : Entity :=
  { id := ("p"), type := ("player"), position := (0, 0), properties := [] }

def stC3 : GState :=
  { grid := { width := 4, height := 1, cells := [[2, 3, 0, 1]] },
    entities := [curC3,
      { id := ("b"), type := ("box"), position := (1, 0), properties := [] }],
    current_entity := some curC3, changes_history := [] }

/-- C3, witness: out of bounds and walls are rejected; pushing the box at
(1,0) onto the empty (2,0) is allowed; stepping onto the empty (2,0) is
allowed. -/
theorem C3_witness :
    check_movement stC3 5 0 = false ∧ check_movement stC3 3 0 = false ∧
    check_movement stC3 1 0 = true ∧ check_movement stC3 2 0 = true :=
  ⟨(C3_can_move_to_spec stC3 5 0).1 (by decide),
   (C3_can_move_to_spec stC3 3 0).2.1 (by decide),
   ((C3_can_move_to_spec stC3 1 0).2.2.1 curC3 rfl (by decide) (by decide)).mpr
     (by decide),
   ((C3_can_move_to_spec stC3 2 0).2.2.2 (by decide) (by decide) (by decide)).mpr
     (by decide)⟩

/-- The required-entities loop returns the conjunction over the list. -/
theorem require_entities_ok_eq_all (st : GState) (ts : List String) :
    require_entities_ok st ts = ts.all (has_entity_type st) := by
  induction ts with
  | nil => rfl
  | cons t rest ih =>
    by_cases h : has_entity_type st t <;>
      simp [require_entities_ok, h, ih]

/-- The victory loop returns the conjunction over the condition list. -/
theorem check_victory_eq_all (evalStr : EvalFn) (st : GState) (cs : List String) :
    check_victory evalStr st cs =
      cs.all (fun c =>
        evaluate_condition evalStr { condition := c, entities := [] } st) := by
  induction cs with
  | nil => rfl
  | cons c rest ih =>
    by_cases h : evaluate_condition evalStr { condition := c, entities := [] } st <;>
      simp [check_victory, h, ih]

/-- The failure loop returns the disjunction over the condition list. -/
theorem check_failure_eq_any (evalStr : EvalFn) (st : GState) (cs : List String) :
    check_failure evalStr st cs =
      cs.any (fun c =>
        evaluate_condition evalStr { condition := c, entities := [] } st) := by
  induction cs with
  | nil => rfl
  | cons c rest ih =>
    by_cases h : evaluate_condition evalStr { condition := c, entities := [] } st <;>
      simp [check_failure, h, ih]

/-- C8.  Condition evaluation is total and lenient: with "any" not listed, a
missing required entity type forces False; an evaluator failure forces
False; otherwise (gate passed) the result is the expression's boolean value.
Totality over every evaluator outcome is built into the statement: the
result is a Bool for every `EvalFn`, every condition and every state. -/
theorem C8_condition_eval_lenient (evalStr : EvalFn) (w : CondWhen) (st : GState) :
    (("any") ∉ w.entities → (∃ t ∈ w.entities, has_entity_type st t = false) →
      evaluate_condition evalStr w st = false) ∧
    (evalStr w.condition st = .err → evaluate_condition evalStr w st = false) ∧
    (∀ b, (("any") ∈ w.entities ∨ ∀ t ∈ w.entities, has_entity_type st t = true) →
      evalStr w.condition st = .ok b → evaluate_condition evalStr w st = b) := by
  refine ⟨?_, ?_, ?_⟩
  · intro hany ht
    obtain ⟨t, htm, htf⟩ := ht
    have hall : require_entities_ok st w.entities = false := by
      rw [require_entities_ok_eq_all]
      simp only [List.all_eq_false]
      exact ⟨t, htm, by simp [htf]⟩
    simp [evaluate_condition, hany, hall]
  · intro he
    unfold evaluate_condition
    split
    · rfl
    · rw [he]
  · intro b hgate hok
    have hcond : ¬ (("any") ∉ w.entities ∧
        require_entities_ok st w.entities = false) := by
      rcases hgate with hany | hall
      · intro hc; exact hc.1 hany
      · intro hc
        rw [require_entities_ok_eq_all] at hc
        have : w.entities.all (has_entity_type st) = true := by
          simp only [List.all_eq_true]
          exact hall
        rw [this] at hc
        simp at hc
    simp [evaluate_condition, hcond, hok]

def stC8 : GState :=
  { grid := { width := 1, height := 1, cells := [[0]] },
    entities := [{ id := ("p1"), type := ("player"), position := (0, 0),
                   properties := [] }],
    current_entity := none, changes_history := [] }

def evalAlways : EvalFn := fun _ _ => .ok true

/-- C8, witness: with an always-true evaluator, a condition requiring an
absent type evaluates false, and one requiring a present type evaluates
true. -/
theorem C8_witness :
    evaluate_condition evalAlways
      { condition := ("c"), entities := [("ghost")] } stC8 = false ∧
    evaluate_condition evalAlways
      { condition := ("c"), entities := [("player")] } stC8 = true :=
  ⟨(C8_condition_eval_lenient evalAlways
      { condition := ("c"), entities := [("ghost")] } stC8).1 (by decide)
      ⟨("ghost"), by decide, by decide⟩,
   (C8_condition_eval_lenient evalAlways
      { condition := ("c"), entities := [("player")] } stC8).2.2 true
      (Or.inr (by decide)) rfl⟩

/-- C9.  The victory flag returned by step is true iff every condition in
the loaded victory list evaluates true against the resulting current state,
and the failure flag is true iff some condition in the failure list
evaluates true against it. -/
theorem C9_step_victory_failure (evalStr : EvalFn) (eng : Engine) :
    ((step_engine evalStr eng).1.victory = true ↔
      ∀ c ∈ eng.victory_conditions,
        evaluate_condition evalStr { condition := c, entities := [] }
          (step_engine evalStr eng).1.state = true) ∧
    ((step_engine evalStr eng).1.failure = true ↔
      ∃ c ∈ eng.failure_conditions,
        evaluate_condition evalStr { condition := c, entities := [] }
          (step_engine evalStr eng).1.state = true) := by
  constructor
  · rw [show (step_engine evalStr eng).1.victory =
        check_victory evalStr (step_engine evalStr eng).1.state
          eng.victory_conditions from rfl]
    rw [check_victory_eq_all]
    simp [List.all_eq_true]
  · rw [show (step_engine evalStr eng).1.failure =
        check_failure evalStr (step_engine evalStr eng).1.state
          eng.failure_conditions from rfl]
    rw [check_failure_eq_any]
    simp [List.any_eq_true]

/-- C10.  Immediately after set_initial_state the history stack already
holds a copy of the initial state, so can_undo is already true and undo —
instead of the none result of an empty history — returns the initial
snapshot, leaving it as the current state with an emptied history and the
pre-undo current state pushed onto the redo stack. -/
theorem C10_undo_right_after_load (sm0 : StateManager) (s : GState) :
    can_undo (set_initial_state sm0 s) = true ∧
    (undo (set_initial_state sm0 s)).1 = some s ∧
    (undo (set_initial_state sm0 s)).2.current = s ∧
    (undo (set_initial_state sm0 s)).2.history = [] ∧
    (undo (set_initial_state sm0 s)).2.future = [s] := by
  simp [can_undo, undo, set_initial_state]

/-- C6, amended.  record_step, called by step after the actions have been
applied, pushes the state current at call time — the post-change state, not
the pre-change one — onto history, evicting the oldest frame when the stack
already holds `max_history` frames (1000 by default), and clears the redo
stack. -/
theorem C6_record_step_pushes_post_state (sm : StateManager) (newPos : Int × Int) :
    (step_move_record sm newPos).history =
      (if sm.max_history ≤ sm.history.length then sm.history.drop 1
       else sm.history) ++ [(move_entity sm.current newPos).2] ∧
    (step_move_record sm newPos).future = [] ∧
    init_state_manager.max_history = 1000 := by
  refine ⟨?_, ?_, rfl⟩ <;> simp [step_move_record, record_step]

def plC6 : Entity :=
  { id := ("p"), type := ("player"), position := (0, 0), properties := [] }

def stC6 : GState :=
  { grid := { width := 3, height := 1, cells := [[2, 0, 0]] },
    entities := [plC6], current_entity := some plC6, changes_history := [] }

def smC6 : StateManager :=
  { current := stC6, history := [stC6], future := [], max_history := 1000 }

/-- C6, counterexample.  In a step that moves the player, the frame pushed
onto history is not the pre-change state (the claim says it is): the pushed
snapshot already has the player moved. -/
theorem C6_counterexample :
    (step_move_record smC6 (1, 0)).history.getLast? ≠ some smC6.current := by
  decide

theorem getD_set_self {α : Type} (l : List α) (n : Nat) (a d : α)
    (h : n < l.length) : (l.set n a).getD n d = a := by
  simp [List.getD_eq_getElem?_getD, List.getElem?_set_self h]

theorem getD_set_ne {α : Type} (l : List α) {n m : Nat} (hne : n ≠ m)
    (a d : α) : (l.set n a).getD m d = l.getD m d := by
  simp [List.getD_eq_getElem?_getD, List.getElem?_set_ne hne]

theorem getD_eq_getElem {α : Type} (l : List α) (n : Nat) (d : α)
    (h : n < l.length) : l.getD n d = l[n] := by
  simp [List.getD_eq_getElem?_getD, List.getElem?_eq_getElem h]

theorem toNat_lt_toNat_of_inB {a b : Int} (h0 : 0 ≤ a) (hab : a < b) :
    a.toNat < b.toNat := by omega

/-- Row count under an in-bounds y, from well-formedness. -/
theorem row_index_lt (g : Grid) (hwf : g.wf) {y : Int} (h0 : 0 ≤ y)
    (hy : y < g.height) : y.toNat < g.cells.length := by
  rw [hwf.1]; omega

/-- Row length under an in-bounds y, from well-formedness. -/
theorem row_len_eq (g : Grid) (hwf : g.wf) {y : Int} (h0 : 0 ≤ y)
    (hy : y < g.height) : (g.cells.getD y.toNat []).length = g.width.toNat := by
  have hlt : y.toNat < g.cells.length := row_index_lt g hwf h0 hy
  rw [getD_eq_getElem _ _ _ hlt]
  exact hwf.2 _ (g.cells.getElem_mem hlt)

theorem setCellG_width (g : Grid) (x y : Int) (v : Int) :
    (setCellG g x y v).width = g.width := rfl

theorem setCellG_height (g : Grid) (x y : Int) (v : Int) :
    (setCellG g x y v).height = g.height := rfl

/-- A write inside the bounds keeps the matrix well-formed. -/
theorem wf_setCellG (g : Grid) (hwf : g.wf) {x y : Int} (h : inB g x y)
    (v : Int) : (setCellG g x y v).wf := by
  obtain ⟨hx0, hxw, hy0, hyh⟩ := h
  constructor
  · simp [setCellG, hwf.1]
  · intro row hrow
    simp only [setCellG] at hrow
    rcases List.mem_or_eq_of_mem_set hrow with hmem | heq
    · exact hwf.2 row hmem
    · subst heq
      rw [List.length_set]
      exact row_len_eq g hwf hy0 hyh

/-- Reading back the written cell. -/
theorem cellAt_setCellG_self (g : Grid) (hwf : g.wf) {x y : Int}
    (h : inB g x y) (v : Int) : cellAt (setCellG g x y v) x y = v := by
  obtain ⟨hx0, hxw, hy0, hyh⟩ := h
  have hylt : y.toNat < g.cells.length := row_index_lt g hwf hy0 hyh
  have hxlt : x.toNat < (g.cells.getD y.toNat []).length := by
    rw [row_len_eq g hwf hy0 hyh]; omega
  simp only [cellAt, setCellG]
  rw [getD_set_self _ _ _ _ hylt]
  rw [getD_set_self _ _ _ _ hxlt]

/-- Reading any other in-bounds cell after a write. -/
theorem cellAt_setCellG_ne (g : Grid) (hwf : g.wf) {x y x' y' : Int}
    (h : inB g x y) (h' : inB g x' y') (hne : (x', y') ≠ (x, y)) (v : Int) :
    cellAt (setCellG g x y v) x' y' = cellAt g x' y' := by
  obtain ⟨hx0, hxw, hy0, hyh⟩ := h
  obtain ⟨hx0', hxw', hy0', hyh'⟩ := h'
  by_cases hyy : y'.toNat = y.toNat
  · have hyeq : y' = y := by omega
    have hxx : x'.toNat ≠ x.toNat := by
      subst hyeq
      have : x' ≠ x := fun hc => hne (by rw [hc])
      omega
    have hylt : y.toNat < g.cells.length := row_index_lt g hwf hy0 hyh
    simp only [cellAt, setCellG, hyeq]
    rw [getD_set_self _ _ _ _ hylt]
    rw [getD_set_ne _ (fun hc => hxx hc.symm)]
  · simp only [cellAt, setCellG]
    rw [getD_set_ne _ (fun hc => hyy hc.symm)]

/-- C2, amended.  For a legal non-box move of the current entity: the
vacated source cell is set to goal-code 4 exactly when the source cell's
code is 2 and a player-typed entity stands at the source (the code's
`old_cell_was_goal` test — true for every player move, whether or not a goal
was underneath), otherwise to 0; the destination cell becomes the
occupant-on-goal code 2 when it held goal-code 4, else the source cell's
previous code.  In particular a cell a player leaves always reads 4
afterwards — so after leaving a goal cell it reads 4, never 0. -/
theorem C2_goal_overlay (st : GState) (cur : Entity) (nx ny : Int)
    (hwf : st.grid.wf) (hcur : st.current_entity = some cur)
    (hOld : inB st.grid cur.position.1 cur.position.2)
    (hNew : inB st.grid nx ny)
    (hne : (nx, ny) ≠ cur.position)
    (hnb : cellAt st.grid nx ny ≠ 3) :
    (move_entity st (nx, ny)).1 =
      some (Effect.move cur.id cur.position (nx, ny)) ∧
    cellAt (move_entity st (nx, ny)).2.grid cur.position.1 cur.position.2 =
      (if vacated_is_goal st.grid st.entities cur.position then 4 else 0) ∧
    cellAt (move_entity st (nx, ny)).2.grid nx ny =
      (if cellAt st.grid nx ny = 4 then 2
       else cellAt st.grid cur.position.1 cur.position.2) := by
  have hme : move_entity st (nx, ny) = move_finish st cur st.grid st.entities (nx, ny) := by
    simp only [move_entity, hcur]
    rw [if_neg (not_not_intro hNew)]
    rw [if_neg hnb]
  set v0 : Int := if vacated_is_goal st.grid st.entities cur.position then 4 else 0 with hv0
  have hwf2 : (setCellG st.grid cur.position.1 cur.position.2 v0).wf :=
    wf_setCellG st.grid hwf hOld v0
  have hgrid : (move_finish st cur st.grid st.entities (nx, ny)).2.grid =
      setCellG (setCellG st.grid cur.position.1 cur.position.2 v0) nx ny
        (if cellAt (setCellG st.grid cur.position.1 cur.position.2 v0) nx ny = 4
         then 2 else cellAt st.grid cur.position.1 cur.position.2) := rfl
  refine ⟨by rw [hme]; rfl, ?_, ?_⟩
  · rw [hme, hgrid]
    rw [cellAt_setCellG_ne _ hwf2 hNew hOld (Ne.symm hne)]
    exact cellAt_setCellG_self st.grid hwf hOld v0
  · rw [hme, hgrid]
    rw [cellAt_setCellG_self _ hwf2 hNew]
    rw [cellAt_setCellG_ne st.grid hwf hOld hNew hne]

def plC2 : Entity :=
  { id := ("p"), type := ("player"), position := (0, 0), properties := [] }

/-- A freshly loaded row `[2, 0, 4]`: the player at (0,0) stands on a plain
cell (the only goal of the fixture is at (2,0)). -/
def stC2 : GState :=
  { grid := { width := 3, height := 1, cells := [[2, 0, 4]] },
    entities := [plC2], current_entity := some plC2, changes_history := [] }

/-- C2, counterexample.  Moving the player off the plain (goal-free) cell
(0,0) sets the vacated cell to goal-code 4, although the claim requires 0
whenever the moving entity was not standing on a goal: the code's test is
`source cell reads 2 and a player stands there`, which any player move
satisfies. -/
theorem C2_counterexample :
    cellAt (move_entity stC2 (1, 0)).2.grid 0 0 = 4 := by decide

/-- C2, witness: the amended statement applied to the concrete fixture. -/
theorem C2_witness :
    (move_entity stC2 (1, 0)).1 =
      some (Effect.move ("p") plC2.position (1, 0)) ∧
    cellAt (move_entity stC2 (1, 0)).2.grid plC2.position.1 plC2.position.2 =
      (if vacated_is_goal stC2.grid stC2.entities plC2.position then 4 else 0) ∧
    cellAt (move_entity stC2 (1, 0)).2.grid 1 0 =
      (if cellAt stC2.grid 1 0 = 4 then 2
       else cellAt stC2.grid plC2.position.1 plC2.position.2) :=
  C2_goal_overlay stC2 plC2 1 0 (by decide) rfl (by decide) (by decide)
    (by decide) (by decide)

/-- C4, amended.  A move whose target cell holds a box — with a box entity
present at the target, as the spec's "both entities" implies — and whose
push destination (one cell further along the push vector) is out of bounds
or not empty/goal (a wall, another box, ...) is rejected wholesale:
move_entity returns the empty record and the state — mover position, box
position, every grid cell — is returned unchanged. -/
theorem C4_box_push_atomic (st : GState) (cur boxE : Entity) (nx ny : Int)
    (hcur : st.current_entity = some cur)
    (hNew : inB st.grid nx ny)
    (h3 : cellAt st.grid nx ny = 3)
    (hfind : st.entities.find? (fun e => decide (e.position = (nx, ny))) =
      some boxE)
    (hbad : ¬ (inB st.grid (nx + (nx - cur.position.1)) (ny + (ny - cur.position.2)) ∧
      (cellAt st.grid (nx + (nx - cur.position.1)) (ny + (ny - cur.position.2)) = 0 ∨
       cellAt st.grid (nx + (nx - cur.position.1)) (ny + (ny - cur.position.2)) = 4))) :
    move_entity st (nx, ny) = (none, st) := by
  simp only [move_entity, hcur]
  rw [if_neg (not_not_intro hNew)]
  rw [if_pos h3]
  rw [hfind]
  rw [if_neg hbad]

def plC4 : Entity :=
  { id := ("p"), type := ("player"), position := (0, 0), properties := [] }

def boxC4 : Entity :=
  { id := ("b"), type := ("box"), position := (1, 0), properties := [] }

/-- Row `[2, 3, 1, 0]`: the player pushes the box at (1,0) into the wall at
(2,0). -/
def stC4 : GState :=
  { grid := { width := 4, height := 1, cells := [[2, 3, 1, 0]] },
    entities := [plC4, boxC4], current_entity := some plC4,
    changes_history := [] }

/-- C4, witness: pushing the box into the wall leaves the state unchanged
and returns no effect. -/
theorem C4_witness : move_entity stC4 (1, 0) = (none, stC4) :=
  C4_box_push_atomic stC4 plC4 boxC4 1 0 rfl (by decide) (by decide) (by decide)
    (by decide)

/-- The same row `[2, 3, 1, 0]` but with no box entity behind the box-coded
cell — a state the loader accepts (RuleValidator checks no cell/entity
consistency). -/
def stC4x : GState :=
  { grid := { width := 4, height := 1, cells := [[2, 3, 1, 0]] },
    entities := [plC4], current_entity := some plC4, changes_history := [] }

/-- C4, counterexample.  The claim quantifies over every state and box-coded
target; with no box entity at the target, move_entity skips the push check
entirely and moves the mover onto the box cell — the grid changes and a
non-empty effect is returned even though the push destination is a wall. -/
theorem C4_counterexample :
    (move_entity stC4x (1, 0)).1 ≠ none ∧
    (move_entity stC4x (1, 0)).2.grid.cells ≠ stC4x.grid.cells := by decide

theorem lookupProp_nil (k : String) : lookupProp [] k = none := rfl

theorem lookupProp_cons (kv : String × Value) (ps : List (String × Value))
    (k : String) :
    lookupProp (kv :: ps) k = if kv.1 = k then some kv.2 else lookupProp ps k := by
  by_cases h : kv.1 = k
  · simp [lookupProp, List.find?_cons_of_pos, h]
  · rw [if_neg h]
    simp only [lookupProp]
    rw [List.find?_cons_of_neg]
    simp [h]

theorem lookup_setProp (ps : List (String × Value)) (k : String) (v : Value)
    (k' : String) :
    lookupProp (setProp ps k v) k' = if k' = k then some v else lookupProp ps k' := by
  induction ps with
  | nil =>
    show lookupProp [(k, v)] k' = _
    rw [lookupProp_cons]
    by_cases h : k' = k
    · simp [h]
    · have h1 : ¬ k = k' := fun hc => h hc.symm
      simp [h, h1, lookupProp_nil]
  | cons kv rest ih =>
    by_cases hk : kv.1 = k
    · simp only [setProp, if_pos hk]
      rw [lookupProp_cons, lookupProp_cons]
      by_cases h : k' = k
      · simp [h]
      · have h1 : ¬ k = k' := fun hc => h hc.symm
        have h2 : ¬ kv.1 = k' := fun hc => h1 (hk ▸ hc)
        simp [h, h1, h2]
    · simp only [setProp, if_neg hk]
      rw [lookupProp_cons, lookupProp_cons]
      by_cases h2 : kv.1 = k'
      · have : ¬ k' = k := fun hc => hk (h2.trans hc)
        simp [h2, this]
      · simp [h2, ih]

theorem lookup_delProp_ne (ps : List (String × Value)) {k k' : String}
    (h : k' ≠ k) : lookupProp (delProp ps k) k' = lookupProp ps k' := by
  induction ps with
  | nil => rfl
  | cons kv rest ih =>
    by_cases hk : kv.1 = k
    · simp only [delProp, if_pos hk]
      rw [lookupProp_cons]
      have : ¬ kv.1 = k' := fun hc => h ((hc ▸ hk : k' = k))
      simp [this]
    · simp only [delProp, if_neg hk]
      rw [lookupProp_cons, lookupProp_cons]
      by_cases h2 : kv.1 = k' <;> simp [h2, ih]

theorem lookupProp_eq_none_of_not_mem {ps : List (String × Value)} {k : String}
    (h : k ∉ ps.map Prod.fst) : lookupProp ps k = none := by
  induction ps with
  | nil => rfl
  | cons kv rest ih =>
    rw [List.map_cons, List.mem_cons] at h
    push_neg at h
    rw [lookupProp_cons]
    have h1 : ¬ kv.1 = k := fun hc => h.1 hc.symm
    simp [h1, ih h.2]

theorem lookup_delProp_self (ps : List (String × Value)) (k : String)
    (hnd : (ps.map Prod.fst).Nodup) : lookupProp (delProp ps k) k = none := by
  induction ps with
  | nil => rfl
  | cons kv rest ih =>
    rw [List.map_cons, List.nodup_cons] at hnd
    by_cases hk : kv.1 = k
    · simp only [delProp, if_pos hk]
      rw [← lookupProp_eq_none_of_not_mem]
      rw [← hk]
      exact hnd.1
    · simp only [delProp, if_neg hk]
      rw [lookupProp_cons]
      simp [hk, ih hnd.2]




theorem keys_setProp (ps : List (String × Value)) (k : String) (v : Value) :
    (setProp ps k v).map Prod.fst =
      (if k ∈ ps.map Prod.fst then ps.map Prod.fst
       else ps.map Prod.fst ++ [k]) := by
  induction ps with
  | nil => simp [setProp]
  | cons kv rest ih =>
    by_cases hk : kv.1 = k
    · simp [setProp, hk]
    · simp only [setProp, if_neg hk, List.map_cons, ih]
      by_cases hm : k ∈ rest.map Prod.fst
      · rw [if_pos hm, if_pos (List.mem_cons_of_mem _ hm)]
      · rw [if_neg hm, if_neg (by
          rw [List.mem_cons]
          push_neg
          exact ⟨fun hc => hk hc.symm, hm⟩)]
        simp

theorem nodup_keys_setProp {ps : List (String × Value)} (k : String) (v : Value)
    (hnd : (ps.map Prod.fst).Nodup) : ((setProp ps k v).map Prod.fst).Nodup := by
  rw [keys_setProp]
  by_cases hm : k ∈ ps.map Prod.fst
  · rw [if_pos hm]; exact hnd
  · rw [if_neg hm]
    rw [List.nodup_append]
    refine ⟨hnd, List.nodup_singleton k, ?_⟩
    intro a ha hb
    rw [List.mem_singleton] at hb
    subst hb
    exact hm ha

theorem keys_delProp_sublist (ps : List (String × Value)) (k : String) :
    ((delProp ps k).map Prod.fst).Sublist (ps.map Prod.fst) := by
  induction ps with
  | nil => simp [delProp]
  | cons kv rest ih =>
    by_cases hk : kv.1 = k
    · simp only [delProp, if_pos hk, List.map_cons]
      exact (List.sublist_cons_self _ _)
    · simp only [delProp, if_neg hk, List.map_cons]
      exact ih.cons₂ kv.1

theorem nodup_keys_delProp {ps : List (String × Value)} (k : String)
    (hnd : (ps.map Prod.fst).Nodup) : ((delProp ps k).map Prod.fst).Nodup :=
  hnd.sublist (keys_delProp_sublist ps k)

theorem nodup_keys_apply_prop_change {ps : List (String × Value)} (k : String)
    (n : Value) (hnd : (ps.map Prod.fst).Nodup) :
    ((apply_prop_change ps k n).map Prod.fst).Nodup := by
  unfold apply_prop_change
  by_cases h : n = Value.null
  · rw [if_pos h]; exact nodup_keys_delProp k hnd
  · rw [if_neg h]; exact nodup_keys_setProp k n hnd

theorem lookup_apply_prop_change_ne (ps : List (String × Value)) {k k' : String}
    (h : k' ≠ k) (n : Value) :
    lookupProp (apply_prop_change ps k n) k' = lookupProp ps k' := by
  unfold apply_prop_change
  by_cases hn : n = Value.null
  · rw [if_pos hn]; exact lookup_delProp_ne ps h
  · rw [if_neg hn]; rw [lookup_setProp]; rw [if_neg h]

/-- Folding the property records of a diff over a property dict: each key is
governed by its (unique) record — deleted when the record's new side is
null, overwritten otherwise — and untouched keys keep their value. -/
theorem fold_prop_lookup (recs : List (String × (Value × Value)))
    (ps : List (String × Value)) (hrnd : (recs.map Prod.fst).Nodup)
    (hpnd : (ps.map Prod.fst).Nodup) (k : String) :
    lookupProp
      (List.foldl (fun acc kv => apply_prop_change acc kv.1 kv.snd.snd) ps recs) k =
      (match recs.find? (fun kv => kv.1 = k) with
       | some kv => if kv.snd.snd = Value.null then none else some kv.snd.snd
       | none => lookupProp ps k) := by
  induction recs generalizing ps with
  | nil => rfl
  | cons r rest ih =>
    rw [List.map_cons, List.nodup_cons] at hrnd
    rw [List.foldl_cons]
    rw [ih _ hrnd.2 (nodup_keys_apply_prop_change _ _ hpnd)]
    by_cases hk : r.1 = k
    · subst hk
      have hnone : rest.find? (fun kv => kv.1 = r.1) = none := by
        rw [List.find?_eq_none]
        intro kv hm
        simp only [decide_eq_true_eq]
        intro hc
        exact hrnd.1 (hc ▸ (List.mem_map_of_mem Prod.fst hm))
      rw [hnone]
      rw [List.find?_cons_of_pos _ (by simp)]
      show lookupProp (apply_prop_change ps r.1 r.snd.snd) r.1 =
        if r.snd.snd = Value.null then none else some r.snd.snd
      unfold apply_prop_change
      by_cases hn : r.snd.snd = Value.null
      · rw [if_pos hn, if_pos hn]
        exact lookup_delProp_self ps r.1 hpnd
      · rw [if_neg hn, if_neg hn]
        rw [lookup_setProp]
        rw [if_pos rfl]
    · rw [List.find?_cons_of_neg _ (by simp [hk])]
      cases hfind : rest.find? (fun kv => kv.1 = k) with
      | some kv => rfl
      | none =>
        exact lookup_apply_prop_change_ne ps (fun hc => hk hc.symm) r.snd.snd

theorem lookupProp_mem {ps : List (String × Value)} {k : String} {v : Value}
    (h : lookupProp ps k = some v) : (k, v) ∈ ps := by
  unfold lookupProp at h
  cases hf : ps.find? (fun kv => kv.1 = k) with
  | none => rw [hf] at h; cases h
  | some kv =>
    rw [hf] at h
    have hm := List.mem_of_find?_eq_some hf
    have hp := List.find?_some hf
    simp only [decide_eq_true_eq] at hp
    have hv : kv.2 = v := by
      simpa using h
    have : (k, v) = kv := by
      cases kv with
      | mk k1 v1 =>
        simp only at hp hv
        rw [hp, hv]
    rw [this]
    exact hm

theorem mem_filterMap_keyed {β : Type} (f : String → Option (String × β))
    (hf : ∀ k r, f k = some r → r.1 = k) (ks : List String) (r : String × β)
    (hm : r ∈ ks.filterMap f) : r.1 ∈ ks := by
  rw [List.mem_filterMap] at hm
  obtain ⟨k, hk, hfk⟩ := hm
  rw [hf k r hfk]
  exact hk

theorem keys_filterMap_keyed_nodup {β : Type} (f : String → Option (String × β))
    (hf : ∀ k r, f k = some r → r.1 = k) (ks : List String) (hnd : ks.Nodup) :
    ((ks.filterMap f).map Prod.fst).Nodup := by
  induction ks with
  | nil => simp
  | cons k0 rest ih =>
    rw [List.nodup_cons] at hnd
    rw [List.filterMap_cons]
    cases hf0 : f k0 with
    | none => exact ih hnd.2
    | some r =>
      rw [List.map_cons, List.nodup_cons]
      refine ⟨?_, ih hnd.2⟩
      intro hc
      rw [List.mem_map] at hc
      obtain ⟨r', hr', he⟩ := hc
      have hin : r'.1 ∈ rest := mem_filterMap_keyed f hf rest r' hr'
      rw [he, hf k0 r hf0] at hin
      exact hnd.1 hin

theorem find?_filterMap_keyed {β : Type} (f : String → Option (String × β))
    (hf : ∀ k r, f k = some r → r.1 = k) (ks : List String) (hnd : ks.Nodup)
    (k : String) :
    (ks.filterMap f).find? (fun r => r.1 = k) =
      (if k ∈ ks then f k else none) := by
  induction ks with
  | nil => simp
  | cons k0 rest ih =>
    rw [List.nodup_cons] at hnd
    rw [List.filterMap_cons]
    cases hf0 : f k0 with
    | none =>
      rw [ih hnd.2]
      by_cases hk : k = k0
      · subst hk
        rw [if_neg hnd.1, if_pos (List.mem_cons_self _ _), hf0]
      · by_cases hm : k ∈ rest
        · rw [if_pos hm, if_pos (List.mem_cons_of_mem _ hm)]
        · rw [if_neg hm, if_neg (by
            rw [List.mem_cons]
            push_neg
            exact ⟨hk, hm⟩)]
    | some r =>
      have hr : r.1 = k0 := hf k0 r hf0
      by_cases hk : k = k0
      · subst hk
        rw [List.find?_cons_of_pos _ (by simp [hr])]
        rw [if_pos (List.mem_cons_self _ _), hf0]
      · rw [List.find?_cons_of_neg _ (by simp [hr]; exact fun hc => hk hc.symm)]
        rw [ih hnd.2]
        by_cases hm : k ∈ rest
        · rw [if_pos hm, if_pos (List.mem_cons_of_mem _ hm)]
        · rw [if_neg hm, if_neg (by
            rw [List.mem_cons]
            push_neg
            exact ⟨hk, hm⟩)]

theorem props_diff_fn_some_some {a b : List (String × Value)} {k : String}
    {o n : Value} (ho : lookupProp a k = some o) (hn : lookupProp b k = some n) :
    props_diff_fn a b k = (if o ≠ n then some (k, (o, n)) else none) := by
  unfold props_diff_fn
  rw [ho, hn]

theorem props_diff_fn_none_some {a b : List (String × Value)} {k : String}
    {n : Value} (ho : lookupProp a k = none) (hn : lookupProp b k = some n) :
    props_diff_fn a b k = some (k, (Value.null, n)) := by
  unfold props_diff_fn
  rw [ho, hn]

theorem props_diff_fn_some_none {a b : List (String × Value)} {k : String}
    {o : Value} (ho : lookupProp a k = some o) (hn : lookupProp b k = none) :
    props_diff_fn a b k = some (k, (o, Value.null)) := by
  unfold props_diff_fn
  rw [ho, hn]

theorem props_diff_fn_none_none {a b : List (String × Value)} {k : String}
    (ho : lookupProp a k = none) (hn : lookupProp b k = none) :
    props_diff_fn a b k = none := by
  unfold props_diff_fn
  rw [ho, hn]

theorem props_diff_fn_keyed (a b : List (String × Value)) :
    ∀ k r, props_diff_fn a b k = some r → r.1 = k := by
  intro k r h
  cases ho : lookupProp a k with
  | some o =>
    cases hn : lookupProp b k with
    | some n =>
      rw [props_diff_fn_some_some ho hn] at h
      by_cases heq : o = n
      · rw [if_neg (show ¬ o ≠ n from fun hc => hc heq)] at h
        cases h
      · rw [if_pos heq] at h
        cases h
        rfl
    | none =>
      rw [props_diff_fn_some_none ho hn] at h
      cases h
      rfl
  | none =>
    cases hn : lookupProp b k with
    | some n =>
      rw [props_diff_fn_none_some ho hn] at h
      cases h
      rfl
    | none =>
      rw [props_diff_fn_none_none ho hn] at h
      cases h

theorem mem_unionKeys {old new : List (String × Value)} {k : String} :
    k ∈ unionKeys old new ↔
      k ∈ old.map Prod.fst ∨ k ∈ new.map Prod.fst := by
  simp [unionKeys, List.mem_dedup, List.mem_append]

/-- Replaying the property records of `compute_props_diff a b` over `a`
reproduces `b` as a map, provided no stored value of `b` is null (the
source conflates a null value with the absent-side marker and deletes the
key). -/
theorem lookup_apply_props (a b : List (String × Value))
    (hna : (a.map Prod.fst).Nodup) (_hnb : (b.map Prod.fst).Nodup)
    (hnull : ∀ kv ∈ b, kv.2 ≠ Value.null) (k : String) :
    lookupProp
      (List.foldl (fun ps kv => apply_prop_change ps kv.1 kv.snd.snd) a
        (compute_props_diff a b)) k = lookupProp b k := by
  have hf := props_diff_fn_keyed a b
  have hund : (unionKeys a b).Nodup := List.nodup_dedup _
  have hrecnd : ((compute_props_diff a b).map Prod.fst).Nodup :=
    keys_filterMap_keyed_nodup _ hf _ hund
  rw [fold_prop_lookup _ _ hrecnd hna k]
  rw [show (compute_props_diff a b).find? (fun kv => kv.1 = k) =
        (if k ∈ unionKeys a b then props_diff_fn a b k else none) from
      find?_filterMap_keyed _ hf _ hund k]
  by_cases hm : k ∈ unionKeys a b
  · rw [if_pos hm]
    cases ho : lookupProp a k with
    | some o =>
      cases hn : lookupProp b k with
      | some n =>
        have hnn : n ≠ Value.null := hnull (k, n) (lookupProp_mem hn)
        rw [props_diff_fn_some_some ho hn]
        by_cases heq : o = n
        · subst heq
          rw [if_neg (show ¬ o ≠ o from fun hc => hc rfl)]
        · rw [if_pos heq]
          show (if n = Value.null then none else some n) = some n
          rw [if_neg hnn]
      | none =>
        rw [props_diff_fn_some_none ho hn]
        show (if Value.null = Value.null then none else some Value.null) = none
        rw [if_pos rfl]
    | none =>
      cases hn : lookupProp b k with
      | some n =>
        have hnn : n ≠ Value.null := hnull (k, n) (lookupProp_mem hn)
        rw [props_diff_fn_none_some ho hn]
        show (if n = Value.null then none else some n) = some n
        rw [if_neg hnn]
      | none =>
        rw [props_diff_fn_none_none ho hn]
  · rw [if_neg hm]
    rw [mem_unionKeys] at hm
    push_neg at hm
    show lookupProp a k = lookupProp b k
    rw [lookupProp_eq_none_of_not_mem hm.1, lookupProp_eq_none_of_not_mem hm.2]

/-- Python dict equality follows from agreement of the two maps on every
key. -/
theorem pyEqProps_of_lookup_eq {p q : List (String × Value)}
    (h : ∀ k, lookupProp p k = lookupProp q k) : pyEqProps p q = true := by
  unfold pyEqProps
  rw [List.all_eq_true]
  intro k _
  simp [h k]

/-- Applying the changes computed between two entities rewrites the tracked
fields to the new side and leaves the id alone; the property dict is the
fold of the property records. -/
theorem apply_entity_changes_compute (a b : Entity) :
    apply_entity_changes a (compute_entity_diff a b) =
      { id := a.id, type := b.type, position := b.position,
        properties :=
          (List.foldl (fun ps kv => apply_prop_change ps kv.1 kv.snd.snd)
            a.properties (compute_props_diff a.properties b.properties)) } := by
  unfold apply_entity_changes compute_entity_diff
  by_cases hp : a.position = b.position <;> by_cases ht : a.type = b.type <;>
    simp [hp, ht]

/-- The reconstructed entity equals the new entity under Python dict
equality. -/
theorem pyEqEntity_apply_diff (a b : Entity) (hid : a.id = b.id)
    (hna : (a.properties.map Prod.fst).Nodup)
    (hnb : (b.properties.map Prod.fst).Nodup)
    (hnull : ∀ kv ∈ b.properties, kv.2 ≠ Value.null) :
    pyEqEntity (apply_entity_changes a (compute_entity_diff a b)) b = true := by
  have h4 : pyEqProps
      (List.foldl (fun ps kv => apply_prop_change ps kv.1 kv.snd.snd)
        a.properties (compute_props_diff a.properties b.properties))
      b.properties = true :=
    pyEqProps_of_lookup_eq
      (fun k => lookup_apply_props a.properties b.properties hna hnb hnull k)
  rw [apply_entity_changes_compute a b]
  simp [pyEqEntity, hid, h4]


theorem findLastById_eq_none_iff {es : List Entity} {i : String} :
    findLastById es i = none ↔ ∀ e ∈ es, e.id ≠ i := by
  simp [findLastById, List.find?_eq_none, List.mem_reverse]

theorem findLastById_cons_self {x : Entity} {es : List Entity}
    (h : x.id ∉ es.map Entity.id) : findLastById (x :: es) x.id = some x := by
  unfold findLastById
  rw [List.reverse_cons, List.find?_append]
  have h1 : es.reverse.find? (fun e => e.id = x.id) = none := by
    rw [List.find?_eq_none]
    intro e he
    simp only [decide_eq_true_eq]
    intro hc
    exact h (hc ▸ List.mem_map_of_mem Entity.id (List.mem_reverse.mp he))
  rw [h1]
  rw [Option.none_or]
  rw [List.find?_singleton]
  simp

theorem findLastById_cons_ne {x : Entity} {es : List Entity} {i : String}
    (h : x.id ≠ i) : findLastById (x :: es) i = findLastById es i := by
  unfold findLastById
  rw [List.reverse_cons, List.find?_append]
  cases hf : es.reverse.find? (fun e => e.id = i) with
  | some e => rfl
  | none =>
    rw [Option.none_or]
    rw [List.find?_singleton]
    simp [h]

theorem diff_mod_fn_of_find {a : List Entity} {e o : Entity}
    (hf : findLastById a e.id = some o) :
    diff_mod_fn a e =
      (if pyEqEntity o e then none
       else some (EntityDiffRec.modify e.id (compute_entity_diff o e))) := by
  unfold diff_mod_fn
  rw [hf]

theorem diff_mod_fn_cons_ne {x : Entity} {a : List Entity} {e : Entity}
    (h : x.id ≠ e.id) : diff_mod_fn (x :: a) e = diff_mod_fn a e := by
  unfold diff_mod_fn
  rw [findLastById_cons_ne h]

theorem diff_adds_nil {a b : List Entity}
    (h : ∀ e ∈ b, e.id ∈ a.map Entity.id) : diff_adds a b = [] := by
  unfold diff_adds
  rw [List.map_eq_nil_iff, List.filter_eq_nil_iff]
  intro e he
  cases hf : findLastById a e.id with
  | some o => simp [hf]
  | none =>
    exfalso
    rw [findLastById_eq_none_iff] at hf
    obtain ⟨e', he', hid⟩ := List.mem_map.mp (h e he)
    exact hf e' he' hid

theorem diff_rems_nil {a b : List Entity}
    (h : ∀ e ∈ a, e.id ∈ b.map Entity.id) : diff_rems a b = [] := by
  unfold diff_rems
  rw [List.map_eq_nil_iff, List.filter_eq_nil_iff]
  intro e he
  cases hf : findLastById b e.id with
  | some o => simp [hf]
  | none =>
    exfalso
    rw [findLastById_eq_none_iff] at hf
    obtain ⟨e', he', hid⟩ := List.mem_map.mp (h e he)
    exact hf e' he' hid

theorem mem_diff_mods {a b : List Entity} {r : EntityDiffRec}
    (h : r ∈ diff_mods a b) :
    ∃ e ∈ b, ∃ o, r = EntityDiffRec.modify e.id (compute_entity_diff o e) := by
  unfold diff_mods at h
  rw [List.mem_filterMap] at h
  obtain ⟨e, he, hf⟩ := h
  cases hfo : findLastById a e.id with
  | none =>
    unfold diff_mod_fn at hf
    rw [hfo] at hf
    cases hf
  | some o =>
    rw [diff_mod_fn_of_find hfo] at hf
    by_cases hpe : pyEqEntity o e
    · rw [if_pos hpe] at hf
      cases hf
    · rw [if_neg hpe] at hf
      cases hf
      exact ⟨e, he, o, rfl⟩

theorem diff_mods_cons {x y : Entity} {a b : List Entity}
    (hxy : x.id = y.id)
    (hxa : x.id ∉ a.map Entity.id)
    (hyb : y.id ∉ b.map Entity.id) :
    diff_mods (x :: a) (y :: b) =
      (if pyEqEntity x y then [] else
        [EntityDiffRec.modify y.id (compute_entity_diff x y)]) ++ diff_mods a b := by
  unfold diff_mods
  rw [List.filterMap_cons]
  have hfy : findLastById (x :: a) y.id = some x := by
    rw [← hxy]
    exact findLastById_cons_self hxa
  rw [diff_mod_fn_of_find hfy]
  have htail : b.filterMap (diff_mod_fn (x :: a)) = b.filterMap (diff_mod_fn a) := by
    apply List.filterMap_congr
    intro e he
    apply diff_mod_fn_cons_ne
    rw [hxy]
    intro hc
    apply hyb
    rw [hc]
    exact List.mem_map_of_mem Entity.id he
  rw [htail]
  by_cases hpe : pyEqEntity x y
  · rw [if_pos hpe, if_pos hpe, List.nil_append]
  · rw [if_neg hpe, if_neg hpe, List.cons_append, List.nil_append]

theorem apply_entity_changes_id (e : Entity) (ch : EntityChanges) :
    (apply_entity_changes e ch).id = e.id := by
  cases ch with
  | mk p t props =>
    cases p <;> cases t <;> rfl

theorem foldl_apply_skip {x : Entity} {es : List Entity}
    {recs : List EntityDiffRec}
    (h : ∀ r ∈ recs, ∃ i ch, r = EntityDiffRec.modify i ch ∧ i ≠ x.id) :
    List.foldl apply_entity_diff (x :: es) recs =
      x :: List.foldl apply_entity_diff es recs := by
  induction recs generalizing es with
  | nil => rfl
  | cons r rest ih =>
    obtain ⟨i, ch, hr, hne⟩ := h r (List.mem_cons_self _ _)
    subst hr
    rw [List.foldl_cons, List.foldl_cons]
    have hstep : apply_entity_diff (x :: es) (EntityDiffRec.modify i ch) =
        x :: apply_entity_diff es (EntityDiffRec.modify i ch) := by
      simp only [apply_entity_diff, List.map_cons]
      rw [if_neg (fun hc => hne hc.symm)]
    rw [hstep]
    exact ih (fun r hr => h r (List.mem_cons_of_mem _ hr))

theorem apply_modify_cons_self {x y : Entity} {es : List Entity}
    (ch : EntityChanges) (hxy : x.id = y.id)
    (hnot : y.id ∉ es.map Entity.id) :
    apply_entity_diff (x :: es) (EntityDiffRec.modify y.id ch) =
      apply_entity_changes x ch :: es := by
  simp only [apply_entity_diff, List.map_cons]
  rw [if_pos hxy]
  congr 1
  have h1 : ∀ e ∈ es,
      (if e.id = y.id then apply_entity_changes e ch else e) = e := by
    intro e he
    have hne : ¬ e.id = y.id := by
      intro hc
      apply hnot
      rw [← hc]
      exact List.mem_map_of_mem Entity.id he
    rw [if_neg hne]
  rw [List.map_congr_left h1]
  exact List.map_id' es

/-- Replaying the modify records of the diff over the old entity list
reproduces the new one (Python dict equality), for lists related as one
engine step leaves them: same id sequence, unique ids, and no null-valued
property on the new side. -/
theorem pyEqEntities_roundtrip : ∀ (a b : List Entity),
    a.map Entity.id = b.map Entity.id →
    (a.map Entity.id).Nodup →
    (∀ e ∈ a, (e.properties.map Prod.fst).Nodup) →
    (∀ e ∈ b, (e.properties.map Prod.fst).Nodup) →
    (∀ e ∈ b, ∀ kv ∈ e.properties, kv.2 ≠ Value.null) →
    pyEqEntities (List.foldl apply_entity_diff a (diff_mods a b)) b = true := by
  intro a
  induction a with
  | nil =>
    intro b hid _ _ _ _
    have hb : b = [] := List.map_eq_nil_iff.mp hid.symm
    subst hb
    rfl
  | cons x a' ih =>
    intro b hid hnd hpa hpb hnull
    cases b with
    | nil => cases hid
    | cons y b' =>
      rw [List.map_cons, List.map_cons] at hid
      injection hid with hxy hids
      rw [List.map_cons, List.nodup_cons] at hnd
      have hxa' : x.id ∉ a'.map Entity.id := hnd.1
      have hnd2 : (a'.map Entity.id).Nodup := hnd.2
      have hyb' : y.id ∉ b'.map Entity.id := by
        rw [← hxy, ← hids]
        exact hxa'
      have hmods : ∀ r ∈ diff_mods a' b',
          ∃ i ch, r = EntityDiffRec.modify i ch ∧ i ≠ x.id := by
        intro r hr
        obtain ⟨e, he, o, hre⟩ := mem_diff_mods hr
        refine ⟨e.id, _, hre, ?_⟩
        intro hc
        apply hyb'
        have hye : y.id = e.id := by rw [← hxy, ← hc]
        rw [hye]
        exact List.mem_map_of_mem Entity.id he
      rw [diff_mods_cons hxy hxa' hyb']
      by_cases hpe : pyEqEntity x y
      · rw [if_pos hpe, List.nil_append]
        rw [foldl_apply_skip hmods]
        show (pyEqEntity x y &&
          pyEqEntities (List.foldl apply_entity_diff a' (diff_mods a' b')) b') = true
        rw [hpe, Bool.true_and]
        exact ih b' hids hnd2
          (fun e he => hpa e (List.mem_cons_of_mem _ he))
          (fun e he => hpb e (List.mem_cons_of_mem _ he))
          (fun e he => hnull e (List.mem_cons_of_mem _ he))
      · rw [if_neg hpe, List.cons_append, List.nil_append, List.foldl_cons]
        rw [apply_modify_cons_self _ hxy (by rw [← hxy]; exact hxa')]
        have hmods2 : ∀ r ∈ diff_mods a' b', ∃ i ch,
            r = EntityDiffRec.modify i ch ∧
            i ≠ (apply_entity_changes x (compute_entity_diff x y)).id := by
          intro r hr
          obtain ⟨i, ch, hre, hne⟩ := hmods r hr
          exact ⟨i, ch, hre, by rw [apply_entity_changes_id]; exact hne⟩
        rw [foldl_apply_skip hmods2]
        show (pyEqEntity (apply_entity_changes x (compute_entity_diff x y)) y &&
          pyEqEntities (List.foldl apply_entity_diff a' (diff_mods a' b')) b') = true
        rw [pyEqEntity_apply_diff x y hxy
          (hpa x (List.mem_cons_self _ _))
          (hpb y (List.mem_cons_self _ _))
          (hnull y (List.mem_cons_self _ _)), Bool.true_and]
        exact ih b' hids hnd2
          (fun e he => hpa e (List.mem_cons_of_mem _ he))
          (fun e he => hpb e (List.mem_cons_of_mem _ he))
          (fun e he => hnull e (List.mem_cons_of_mem _ he))

/-- Shift a cell record one row down (proof device for the row-by-row
analysis of the diff scan). -/
def bumpY (d : CellDiff) : CellDiff :=
  { d with pos := (d.pos.1, d.pos.2 + 1) }

/-- Shift a cell record one column right. -/
def bumpX (d : CellDiff) : CellDiff :=
  { d with pos := (d.pos.1 + 1, d.pos.2) }

/-- Replaying cell records over a single row. -/
def apply_row (r : List Int) (ds : List CellDiff) : List Int :=
  ds.foldl (fun rr d => rr.set d.pos.1 d.new) r

theorem apply_row_append (r : List Int) (ds1 ds2 : List CellDiff) :
    apply_row r (ds1 ++ ds2) = apply_row (apply_row r ds1) ds2 := by
  unfold apply_row
  rw [List.foldl_append]

theorem apply_cells_append (cells : List (List Int)) (ds1 ds2 : List CellDiff) :
    apply_cells cells (ds1 ++ ds2) = apply_cells (apply_cells cells ds1) ds2 := by
  unfold apply_cells
  rw [List.foldl_append]

theorem mem_row_diff_y {yy : Nat} {r s : List Int} {d : CellDiff}
    (h : d ∈ row_diff yy r s) : d.pos.2 = yy := by
  unfold row_diff at h
  rw [List.mem_filterMap] at h
  obtain ⟨xx, _, hf⟩ := h
  by_cases hne : r.getD xx 0 ≠ s.getD xx 0
  · rw [if_pos hne] at hf
    cases hf
    rfl
  · rw [if_neg hne] at hf
    cases hf

theorem row_diff_cons (yy : Nat) (a b : Int) (r s : List Int) :
    row_diff yy (a :: r) (b :: s) =
      (if a ≠ b then [{ pos := (0, yy), old := a, new := b }] else []) ++
        (row_diff yy r s).map bumpX := by
  unfold row_diff
  rw [show min (a :: r).length (b :: s).length = min r.length s.length + 1 from by
    simp [List.length_cons, Nat.succ_min_succ]]
  rw [List.range_succ_eq_map]
  rw [List.filterMap_cons]
  rw [List.filterMap_map]
  rw [List.map_filterMap]
  have hcomp : ∀ xx ∈ List.range (min r.length s.length),
      ((fun xx => if (a :: r).getD xx 0 ≠ (b :: s).getD xx 0 then
          some { pos := (xx, yy), old := (a :: r).getD xx 0,
                 new := (b :: s).getD xx 0 }
        else none) ∘ Nat.succ) xx =
      Option.map bumpX (if r.getD xx 0 ≠ s.getD xx 0 then
          some { pos := (xx, yy), old := r.getD xx 0, new := s.getD xx 0 }
        else none) := by
    intro xx _
    show (if (a :: r).getD (xx + 1) 0 ≠ (b :: s).getD (xx + 1) 0 then _ else _) = _
    rw [List.getD_cons_succ, List.getD_cons_succ]
    by_cases h : r.getD xx 0 ≠ s.getD xx 0
    · rw [if_pos h, if_pos h]
      rfl
    · rw [if_neg h, if_neg h]
      rfl
  rw [List.filterMap_congr hcomp]
  by_cases hab : a ≠ b
  · rw [show ((if (a :: r).getD 0 0 ≠ (b :: s).getD 0 0 then
        some { pos := (0, yy), old := (a :: r).getD 0 0,
               new := (b :: s).getD 0 0 }
      else none) : Option CellDiff) =
        some { pos := (0, yy), old := a, new := b } from by
      rw [List.getD_cons_zero, List.getD_cons_zero, if_pos hab]]
    rw [if_pos hab, List.cons_append, List.nil_append]
  · rw [show ((if (a :: r).getD 0 0 ≠ (b :: s).getD 0 0 then
        some { pos := (0, yy), old := (a :: r).getD 0 0,
               new := (b :: s).getD 0 0 }
      else none) : Option CellDiff) = none from by
      rw [List.getD_cons_zero, List.getD_cons_zero, if_neg hab]]
    rw [if_neg hab, List.nil_append]

theorem row_diff_y_shift (yy : Nat) (r s : List Int) :
    row_diff (yy + 1) r s = (row_diff yy r s).map bumpY := by
  unfold row_diff
  rw [List.map_filterMap]
  apply List.filterMap_congr
  intro xx _
  by_cases h : r.getD xx 0 ≠ s.getD xx 0
  · rw [if_pos h, if_pos h]
    rfl
  · rw [if_neg h, if_neg h]
    rfl

theorem cells_diff_cons (r s : List Int) (o n : List (List Int)) :
    cells_diff (r :: o) (s :: n) =
      row_diff 0 r s ++ (cells_diff o n).map bumpY := by
  unfold cells_diff
  rw [show min (r :: o).length (s :: n).length = min o.length n.length + 1 from by
    simp [List.length_cons, Nat.succ_min_succ]]
  rw [List.range_succ_eq_map]
  rw [List.flatMap_cons]
  rw [List.flatMap_map]
  rw [List.map_flatMap]
  have hfun : (fun yy => row_diff (yy + 1) ((r :: o).getD (yy + 1) [])
        ((s :: n).getD (yy + 1) [])) =
      (fun yy => (row_diff yy (o.getD yy []) (n.getD yy [])).map bumpY) := by
    funext yy
    rw [List.getD_cons_succ, List.getD_cons_succ, row_diff_y_shift]
  show row_diff 0 ((r :: o).getD 0 []) ((s :: n).getD 0 []) ++
      (List.range (min o.length n.length)).flatMap (fun yy =>
        row_diff (yy + 1) ((r :: o).getD (yy + 1) []) ((s :: n).getD (yy + 1) [])) =
    row_diff 0 r s ++ (List.range (min o.length n.length)).flatMap (fun yy =>
      (row_diff yy (o.getD yy []) (n.getD yy [])).map bumpY)
  rw [hfun, List.getD_cons_zero, List.getD_cons_zero]

theorem apply_cells_row0 {ds : List CellDiff} (h : ∀ d ∈ ds, d.pos.2 = 0)
    (r : List Int) (cs : List (List Int)) :
    apply_cells (r :: cs) ds = apply_row r ds :: cs := by
  induction ds generalizing r with
  | nil => rfl
  | cons d rest ih =>
    have h0 : d.pos.2 = 0 := h d (List.mem_cons_self _ _)
    unfold apply_cells apply_row
    rw [List.foldl_cons, List.foldl_cons]
    have hstep : (r :: cs).set d.pos.2
        (((r :: cs).getD d.pos.2 []).set d.pos.1 d.new) =
        (r.set d.pos.1 d.new) :: cs := by
      rw [h0]
      rfl
    rw [hstep]
    exact ih (fun d hd => h d (List.mem_cons_of_mem _ hd)) (r.set d.pos.1 d.new)

theorem apply_cells_bumpY (ds : List CellDiff) (r : List Int)
    (cs : List (List Int)) :
    apply_cells (r :: cs) (ds.map bumpY) = r :: apply_cells cs ds := by
  induction ds generalizing cs with
  | nil => rfl
  | cons d rest ih =>
    unfold apply_cells
    rw [List.map_cons, List.foldl_cons, List.foldl_cons]
    have hstep : (r :: cs).set (bumpY d).pos.2
        (((r :: cs).getD (bumpY d).pos.2 []).set (bumpY d).pos.1 (bumpY d).new) =
        r :: cs.set d.pos.2 ((cs.getD d.pos.2 []).set d.pos.1 d.new) := rfl
    rw [hstep]
    exact ih (cs.set d.pos.2 ((cs.getD d.pos.2 []).set d.pos.1 d.new))

theorem apply_row_bumpX (ds : List CellDiff) (c : Int) (r : List Int) :
    apply_row (c :: r) (ds.map bumpX) = c :: apply_row r ds := by
  induction ds generalizing r with
  | nil => rfl
  | cons d rest ih =>
    unfold apply_row
    rw [List.map_cons, List.foldl_cons, List.foldl_cons]
    have hstep : (c :: r).set (bumpX d).pos.1 (bumpX d).new =
        c :: r.set d.pos.1 d.new := rfl
    rw [hstep]
    exact ih (r.set d.pos.1 d.new)

theorem apply_row_diff (yy : Nat) :
    ∀ (r s : List Int), r.length = s.length →
      apply_row r (row_diff yy r s) = s := by
  intro r
  induction r with
  | nil =>
    intro s hs
    have hsn : s = [] := List.length_eq_zero.mp hs.symm
    subst hsn
    rfl
  | cons a r' ih =>
    intro s hs
    cases s with
    | nil => cases hs
    | cons b s' =>
      rw [row_diff_cons]
      rw [apply_row_append]
      by_cases hab : a ≠ b
      · rw [if_pos hab]
        have hhead : apply_row (a :: r')
            [{ pos := (0, yy), old := a, new := b }] = b :: r' := rfl
        rw [hhead]
        rw [apply_row_bumpX]
        rw [ih s' (by simpa using hs)]
      · rw [if_neg hab]
        push_neg at hab
        have hhead : apply_row (a :: r') [] = a :: r' := rfl
        rw [hhead]
        rw [apply_row_bumpX]
        rw [ih s' (by simpa using hs), hab]

/-- Replaying the cell records of the diff over the old cell matrix
reproduces the new one, when the two matrices have the same shape. -/
theorem apply_cells_diff : ∀ (o n : List (List Int)), o.length = n.length →
    (∀ i, (o.getD i []).length = (n.getD i []).length) →
    apply_cells o (cells_diff o n) = n := by
  intro o
  induction o with
  | nil =>
    intro n hlen _
    have hn : n = [] := List.length_eq_zero.mp hlen.symm
    subst hn
    rfl
  | cons r o' ih =>
    intro n hlen hrows
    cases n with
    | nil => cases hlen
    | cons s n' =>
      rw [cells_diff_cons]
      rw [apply_cells_append]
      rw [apply_cells_row0 (fun d hd => mem_row_diff_y hd) r o']
      rw [apply_row_diff 0 r s (by
        have := hrows 0
        simpa [List.getD_cons_zero] using this)]
      rw [apply_cells_bumpY]
      rw [ih n' (by simpa using hlen) (fun i => by
        have := hrows (i + 1)
        simpa [List.getD_cons_succ] using this)]

/-- C5, amended.  Diff/patch round trip: applying the diff computed between
A and B to A reproduces B — its grid and entity store under Python dict
equality — for state pairs shaped as one engine step leaves them (same
entity-id sequence, unique ids, dict-shaped property lists, equal grid
dimensions), provided the step set no entity property to null: the source's
apply side reads a null new-value as "delete the key" (the same Python None
marks both sides), so a null-valued property is the one single-step change
the round trip cannot reproduce (see the counterexample). -/
theorem C5_roundtrip (A B : GState)
    (hid : A.entities.map Entity.id = B.entities.map Entity.id)
    (hnd : (A.entities.map Entity.id).Nodup)
    (hkA : ∀ e ∈ A.entities, (e.properties.map Prod.fst).Nodup)
    (hkB : ∀ e ∈ B.entities, (e.properties.map Prod.fst).Nodup)
    (hnull : ∀ e ∈ B.entities, ∀ kv ∈ e.properties, kv.2 ≠ Value.null)
    (hw : A.grid.width = B.grid.width) (hh : A.grid.height = B.grid.height)
    (hlen : A.grid.cells.length = B.grid.cells.length)
    (hrows : ∀ i, (A.grid.cells.getD i []).length =
      (B.grid.cells.getD i []).length) :
    pyEqStateGE (apply_diff A (compute_state_diff A B)) B = true := by
  have hg : (apply_diff A (compute_state_diff A B)).grid = B.grid := by
    show ({ width := A.grid.width, height := A.grid.height,
            cells := apply_cells A.grid.cells
              (cells_diff A.grid.cells B.grid.cells) } : Grid) = B.grid
    rw [apply_cells_diff _ _ hlen hrows, hw, hh]
  have hadds : diff_adds A.entities B.entities = [] := by
    apply diff_adds_nil
    intro e he
    rw [hid]
    exact List.mem_map_of_mem Entity.id he
  have hrems : diff_rems A.entities B.entities = [] := by
    apply diff_rems_nil
    intro e he
    rw [← hid]
    exact List.mem_map_of_mem Entity.id he
  have hdiff : (compute_state_diff A B).entities =
      diff_mods A.entities B.entities := by
    show diff_adds A.entities B.entities ++ diff_mods A.entities B.entities ++
      diff_rems A.entities B.entities = diff_mods A.entities B.entities
    rw [hadds, hrems, List.nil_append, List.append_nil]
  have hents : pyEqEntities (apply_diff A (compute_state_diff A B)).entities
      B.entities = true := by
    show pyEqEntities (List.foldl apply_entity_diff A.entities
      (compute_state_diff A B).entities) B.entities = true
    rw [hdiff]
    exact pyEqEntities_roundtrip A.entities B.entities hid hnd hkA hkB hnull
  unfold pyEqStateGE
  rw [Bool.and_eq_true, decide_eq_true_eq]
  exact ⟨hg, hents⟩

def eC5 : Entity :=
  { id := ("e1"), type := ("thing"), position := (0, 0),
    properties := [(("p"), Value.int 1)] }

def stC5A : GState :=
  { grid := { width := 1, height := 1, cells := [[0]] },
    entities := [eC5], current_entity := some eC5, changes_history := [] }

/-- The state one transform step away from `stC5A`: the fired rule's
parameters set property p to null (a JSON-legal rule parameter). -/
def stC5B : GState := (transform_entity stC5A [(("p"), Value.null)]).2

/-- C5, counterexample.  B is reachable from A by a single step (one
transform action setting property p to null), yet the round trip loses the
property: _compute_entity_diff records `{old: 1, new: null}` and apply_diff
reads the null as the absent-side marker and deletes the key, so the
reconstructed entity lacks p while B maps it to null — the states differ
under Python dict equality. -/
theorem C5_counterexample :
    pyEqStateGE (apply_diff stC5A (compute_state_diff stC5A stC5B)) stC5B =
      false := by decide

def eC5w : Entity :=
  { id := ("w"), type := ("player"), position := (0, 0),
    properties := [(("hp"), Value.int 3)] }

def stC5WA : GState :=
  { grid := { width := 2, height := 1, cells := [[2, 0]] },
    entities := [eC5w], current_entity := none, changes_history := [] }

def stC5WB : GState :=
  { grid := { width := 2, height := 1, cells := [[4, 2]] },
    entities := [{ id := ("w"), type := ("player"), position := (1, 0),
                   properties := [(("hp"), Value.int 2)] }],
    current_entity := none, changes_history := [] }

/-- C5, witness: a step's worth of changes — the entity moved, a property
value changed, two grid cells changed — survives the round trip. -/
theorem C5_witness :
    pyEqStateGE (apply_diff stC5WA (compute_state_diff stC5WA stC5WB)) stC5WB =
      true :=
  C5_roundtrip stC5WA stC5WB rfl (by decide) (by decide) (by decide)
    (by decide) rfl rfl rfl
    (fun i => by
      cases i with
      | zero => rfl
      | succ n => rfl)
